import Mathlib

/-!
# Verification of the Protein Meals API backend

Shallow embedding of `src/main.py` and `src/schemas.py` of the
protein-focused food-delivery backend, together with theorems settling the
behavioural claims about it.

Modelling conventions:
* MongoDB documents are association lists `List (String × Value)` over a
  BSON-like `Value` type; the store-native identity (`bson.ObjectId`) is the
  constructor `Value.vOid`.
* Python floats are modelled as rationals `ℚ`; `round(x, 1)` is modelled by
  `round1` (round half to even on exact tenths, as Python's `round` does on
  ties).
* A FastAPI handler body wrapped in `try/except` is modelled as a function
  into `Except (Nat × String) α`: an error is the `(status_code, detail)` of
  the `HTTPException` ultimately raised. `fastapi.HTTPException` subclasses
  `Exception`, so a blanket `except Exception` clause catches it too; the
  embedding reproduces this.
* The store layer `database.py` is imported by `main.py` but is not part of
  the sources; its primitives (`db[...]`, `create_document`, `get_documents`)
  are modelled from the spec where marked.
-/

set_option autoImplicit false

namespace ProteinMeals

/-- BSON-like values of documents held in the Mongo collections.
`vOid` is the store-native identity representation (`bson.ObjectId`). -/
inductive Value where
  | vNull : Value
  | vStr (s : String) : Value
  | vNum (q : ℚ) : Value
  | vBool (b : Bool) : Value
  | vOid (n : Nat) : Value
  | vArr (xs : List Value) : Value
  | vDoc (fs : List (String × Value)) : Value

/-- A Mongo document: ordered field list with (by Mongo convention) unique keys. -/
abbrev Doc := List (String × Value)

/-- `d.get(k)` on a Python dict: value at the first occurrence of key `k`. -/
def getField (d : Doc) (k : String) : Option Value :=
  match d with
  | [] => none
  | (k', v) :: rest => if k' = k then some v else getField rest k

/-- `d.pop(k)` / key removal: drop the field named `k`. -/
def removeField (d : Doc) (k : String) : Doc :=
  d.filter (fun kv => kv.1 ≠ k)

/-- `d[k] = v` on a Python dict: overwrite the first binding of `k` in place,
or append `(k, v)` at the end when `k` is absent. -/
def setField (d : Doc) (k : String) (v : Value) : Doc :=
  match d with
  | [] => [(k, v)]
  | (k', v') :: rest => if k' = k then (k, v) :: rest else (k', v') :: setField rest k v

mutual

/-- Whether a value contains the store-native identity representation
(`ObjectId`) anywhere inside it. -/
def Value.hasOid : Value → Bool
  | .vNull => false
  | .vStr _ => false
  | .vNum _ => false
  | .vBool _ => false
  | .vOid _ => true
  | .vArr xs => listHasOid xs
  | .vDoc fs => fieldsHasOid fs

/-- `hasOid` over a list of values. -/
def listHasOid : List Value → Bool
  | [] => false
  | v :: vs => v.hasOid || listHasOid vs

/-- `hasOid` over the fields of a document. -/
def fieldsHasOid : List (String × Value) → Bool
  | [] => false
  | (_, v) :: fs => v.hasOid || fieldsHasOid fs

end

/-- Modelled from the spec: the store-assigned identity "exposed externally
as a string" — `str(ObjectId)` rendering of the opaque identity (`bson` is an
external library; only injectivity and string-ness matter here). -/
def oidString (n : Nat) : String := toString n

/-- Python `str()` applied to a document value (used on the `_id` value in
`str(m.pop("_id"))`). -/
def valueStr : Value → String
  | .vNull => "None"
  | .vStr s => s
  | .vNum q => toString q
  | .vBool b => if b then "True" else "False"
  | .vOid n => oidString n
  | .vArr _ => "<list>"
  | .vDoc _ => "<dict>"

/-- Round half to even, Python's `round` tie-breaking (`rhe (5/2) = 2`):
nearest integer, with an exact half going to the even neighbour. The branch
conditions compare `2 * x` with `2 * ⌊x⌋ + 1`, i.e. the fractional part
with one half. -/
def rhe (x : ℚ) : ℤ :=
  let f := ⌊x⌋
  if 2 * x < 2 * f + 1 then f
  else if 2 * f + 1 < 2 * x then f + 1
  else if f % 2 = 0 then f else f + 1

/-- Python `round(x, 1)`: round to one decimal place. -/
def round1 (x : ℚ) : ℚ := (rhe (10 * x) : ℚ) / 10

/-! ## Portion scaling — `POST /meals/portion` (`get_portion_macros`) -/

/-- An exception raised inside a handler's `try` block: either a
`fastapi.HTTPException` (status code and detail) or a native Python
exception rendered by its message. -/
inductive PyErr where
  | httpEx (code : Nat) (detail : String) : PyErr
  | pyEx (msg : String) : PyErr

/-- `str(e)` for a caught exception: Starlette's `HTTPException.__str__`
renders `f"{status_code}: {detail}"`; a plain exception renders its message. -/
def PyErr.str : PyErr → String
  | .httpEx code detail => toString code ++ ": " ++ detail
  | .pyEx msg => msg

/-- `db["meal"].find_one({"_id": ObjectId(meal_id)})`: first stored document
whose `_id` field is the given ObjectId. -/
def findOne (store : List Doc) (oid : Nat) : Option Doc :=
  store.find? fun d =>
    match getField d "_id" with
    | some (Value.vOid m) => m = oid
    | _ => false

/-- `doc.get("macros", {})` followed by use as a dict: absent field gives the
empty dict; a non-dict value makes the later `.items()` raise. -/
def getMacrosDict (doc : Doc) : Except PyErr (List (String × Value)) :=
  match getField doc "macros" with
  | none => .ok []
  | some (Value.vDoc fs) => .ok fs
  | some _ => .error (.pyEx "AttributeError: object has no attribute items")

/-- `{k: round(v * factor, 1) for k, v in macros.items()}`: a non-numeric
value makes `v * factor` raise. -/
def scaleEntries (fs : List (String × Value)) (factor : ℚ) :
    Except PyErr (List (String × ℚ)) :=
  match fs with
  | [] => .ok []
  | (k, Value.vNum q) :: rest =>
      match scaleEntries rest factor with
      | .ok tail => .ok ((k, round1 (q * factor)) :: tail)
      | .error e => .error e
  | (_, _) :: _ =>
      .error (.pyEx "TypeError: unsupported operand type(s) for *")

/-- Success shape of the portion endpoint: `{"servings": factor, "macros": scaled}`. -/
structure PortionResp where
  servings : ℚ
  macros : List (String × ℚ)
deriving DecidableEq

/-- Body of the `try:` block of `get_portion_macros` (`src/main.py` lines
107–115): look the meal up, 404 if absent, clamp the factor to a minimum of
0.25, scale every stored macro entry and round to one decimal place. -/
def getPortionMacrosTry (store : List Doc) (oid : Nat) (servings : ℚ) :
    Except PyErr PortionResp :=
  match findOne store oid with
  | none => .error (.httpEx 404 "Meal not found")
  | some doc =>
      match getMacrosDict doc with
      | .error e => .error e
      | .ok macros =>
          let factor := max (1/4 : ℚ) servings
          match scaleEntries macros factor with
          | .error e => .error e
          | .ok scaled => .ok ⟨factor, scaled⟩

/-- `get_portion_macros` (`src/main.py` lines 105–117). The `except
Exception` clause catches every exception raised in the `try:` block —
including the `HTTPException(404)`, since `fastapi.HTTPException` subclasses
`Exception` — and re-raises it as `HTTPException(500, str(e))`. The result
is the `(status_code, detail)` of the response. -/
def getPortionMacros (store : List Doc) (oid : Nat) (servings : ℚ) :
    Except (Nat × String) PortionResp :=
  match getPortionMacrosTry store oid servings with
  | .ok r => .ok r
  | .error e => .error (500, e.str)

/-! ## Data model — `src/schemas.py` -/

/-- `Macros` (`src/schemas.py` lines 12–16): the four per-serving nutrition
fields. The schema constrains each to be ≥ 0. -/
structure Macros where
  protein : ℚ
  carbs : ℚ
  fats : ℚ
  calories : ℚ

/-- `Meal` (`src/schemas.py` lines 21–31). `category` is drawn from the
`CategoryType` literal enumeration and `diet_tags` from `DietTag`; both are
carried here as strings. -/
structure Meal where
  title : String
  description : Option String
  category : String
  diet_tags : List String
  price : ℚ
  macros : Macros
  image_url : Option String
  is_customizable : Bool
  available_add_ons : Option (List String)

/-- Optional string field of a model dump. -/
def optStrVal : Option String → Value
  | none => .vNull
  | some s => .vStr s

/-- Model dump of `Macros`, in field declaration order. -/
def macrosToDoc (m : Macros) : Doc :=
  [("protein", .vNum m.protein), ("carbs", .vNum m.carbs),
   ("fats", .vNum m.fats), ("calories", .vNum m.calories)]

/-- Model dump of `Meal`, in field declaration order, as stored in the
`"meal"` collection. -/
def mealToDoc (m : Meal) : Doc :=
  [("title", .vStr m.title),
   ("description", optStrVal m.description),
   ("category", .vStr m.category),
   ("diet_tags", .vArr (m.diet_tags.map .vStr)),
   ("price", .vNum m.price),
   ("macros", .vDoc (macrosToDoc m.macros)),
   ("image_url", optStrVal m.image_url),
   ("is_customizable", .vBool m.is_customizable),
   ("available_add_ons",
     match m.available_add_ons with
     | none => Value.vNull
     | some xs => Value.vArr (xs.map .vStr))]

/-! ## Seed — `POST /seed` (`seed`, `INITIAL_MEALS`) -/

/-- `INITIAL_MEALS` (`src/main.py` lines 56–63): the fixed built-in catalog. -/
def INITIAL_MEALS : List Meal :=
  [⟨"Protein Pancakes", some "Fluffy oat-banana pancakes with whey.", "Breakfasts",
    ["vegetarian"], 999/100, ⟨35, 45, 8, 420⟩, none, false, none⟩,
   ⟨"Spinach Omelette", some "Egg whites, spinach, feta.", "Breakfasts",
    ["keto"], 85/10, ⟨32, 6, 14, 290⟩, none, false, none⟩,
   ⟨"Greek Yogurt Bowl", some "Greek yogurt, berries, almonds.", "Breakfasts",
    ["low-carb"], 79/10, ⟨28, 22, 10, 320⟩, none, false, none⟩,
   ⟨"Chicken Power Bowl", some "Grilled chicken, quinoa, veggies.", "Main Meals",
    [], 1299/100, ⟨50, 40, 12, 520⟩, none, false, none⟩,
   ⟨"Tofu Teriyaki Bowl", some "High-protein tofu, brown rice, broccoli.", "Main Meals",
    ["vegan"], 115/10, ⟨35, 55, 14, 540⟩, none, false, none⟩,
   ⟨"Custom Protein Smoothie", some "Build your own shake.", "Smoothies & Shakes",
    ["vegan"], 699/100, ⟨25, 30, 6, 310⟩, none, true,
    some ["whey", "vegan protein", "creatine", "peanut butter", "chia seeds"]⟩]

/-- The `"meal"` collection together with the store's ObjectId generator
state (fresh identities are `next`, `next + 1`, …). -/
structure MealStore where
  docs : List Doc
  next : Nat

/-- Modelled from the spec: `create_document("meal", m)` of the store layer
(`database.py`, not among the sources) inserts the model dump into the
collection under a fresh store-assigned identity. -/
def insertMeal (st : MealStore) (m : Meal) : MealStore :=
  ⟨st.docs ++ [("_id", Value.vOid st.next) :: mealToDoc m], st.next + 1⟩

/-- Response shape of `POST /seed`. -/
structure SeedResp where
  seeded : Bool
  count : Nat
deriving DecidableEq

/-- `seed` (`src/main.py` lines 65–75): count the stored meals; when the
collection is empty insert every `INITIAL_MEALS` entry and report
`{seeded: true, count: len(INITIAL_MEALS)}`; otherwise write nothing and
report `{seeded: false, count: existing}`. -/
def seed (st : MealStore) : MealStore × SeedResp :=
  if st.docs.length = 0 then
    (INITIAL_MEALS.foldl insertMeal st, ⟨true, INITIAL_MEALS.length⟩)
  else
    (st, ⟨false, st.docs.length⟩)

/-! ## List meals — `GET /meals` (`list_meals`) -/

/-- Python truthiness of an `Optional[str]`: `None` and `""` are falsy. -/
def truthy : Option String → Bool
  | none => false
  | some s => s ≠ ""

/-- The `filter_dict` built by `list_meals` (`src/main.py` lines 84–88):
`category` contributes an equality condition and `diet` a `$in` condition,
each only when the parameter is truthy (so an empty string contributes no
condition). Both condition forms match the same documents for string
values, so each entry is carried as its field name and string value. -/
def filterDict (category diet : Option String) : List (String × String) :=
  (if truthy category then [("category", category.getD "")] else []) ++
  (if truthy diet then [("diet_tags", diet.getD "")] else [])

/-- Mongo match of one filter condition: `{k: v}` (and `{k: {"$in": [v]}}`)
match a document whose field `k` equals the string `v` or is an array
containing it; an absent field matches nothing. -/
def mongoFieldMatch (d : Doc) (k v : String) : Bool :=
  match getField d k with
  | some (Value.vStr s) => s = v
  | some (Value.vArr xs) =>
      xs.any fun x => match x with | Value.vStr s => s = v | _ => false
  | _ => false

/-- Modelled from the spec: `get_documents("meal", filter_dict)` of the store
layer (`database.py`, not among the sources) returns the stored documents
matching every condition of the filter, in storage order. -/
def getDocuments (store : List Doc) (filt : List (String × String)) : List Doc :=
  store.filter fun d => filt.all fun kv => mongoFieldMatch d kv.1 kv.2

/-- `m.get("macros", {}).get("protein", 0)` (`src/main.py` line 92): the
effective protein value a document is filtered on. An absent `macros` or
`protein` field defaults to `0`; a non-dict `macros` or a non-numeric
`protein` raises (Python booleans count as numbers). -/
def effectiveProtein (d : Doc) : Except PyErr ℚ :=
  match getField d "macros" with
  | none => .ok 0
  | some (Value.vDoc fs) =>
      match getField fs "protein" with
      | none => .ok 0
      | some (Value.vNum q) => .ok q
      | some (Value.vBool b) => .ok (if b then 1 else 0)
      | some _ => .error (.pyEx "TypeError: comparison not supported")
  | some _ => .error (.pyEx "AttributeError: object has no attribute get")

/-- The post-retrieval protein filter
`[m for m in meals if m.get("macros", {}).get("protein", 0) >= min_protein]`,
evaluated left to right. -/
def proteinFilter (meals : List Doc) (t : ℚ) : Except PyErr (List Doc) :=
  match meals with
  | [] => .ok []
  | d :: rest =>
      match effectiveProtein d with
      | .error e => .error e
      | .ok p =>
          match proteinFilter rest t with
          | .error e => .error e
          | .ok tail => .ok (if t ≤ p then d :: tail else tail)

/-- The identity transform of `list_meals` (`src/main.py` lines 94–96): when
a document has an `_id` field, remove it and bind key `"id"` to its `str()`
rendering. -/
def transformId (d : Doc) : Doc :=
  match getField d "_id" with
  | some v => setField (removeField d "_id") "id" (Value.vStr (valueStr v))
  | none => d

/-- Body of the `try:` block of `list_meals` (`src/main.py` lines 83–97):
build the filter dict, fetch matching documents, apply the protein
post-filter when `min_protein` was supplied, then expose identities as
strings. -/
def listMealsTry (store : List Doc) (category diet : Option String)
    (minProtein : Option ℚ) : Except PyErr (List Doc) :=
  let meals := getDocuments store (filterDict category diet)
  match minProtein with
  | none => .ok (meals.map transformId)
  | some t =>
      match proteinFilter meals t with
      | .error e => .error e
      | .ok filtered => .ok (filtered.map transformId)

/-- `list_meals` (`src/main.py` lines 77–99). FastAPI validates
`min_protein ≥ 0` before the handler runs; inside the handler any raised
exception becomes a 500. The result is the `items` list, or the
`(status_code, detail)` of the `HTTPException` raised. -/
def listMeals (store : List Doc) (category diet : Option String)
    (minProtein : Option ℚ) : Except (Nat × String) (List Doc) :=
  match listMealsTry store category diet minProtein with
  | .ok l => .ok l
  | .error e => .error (500, e.str)

/-! ## Subscriptions — `POST /subscriptions` (`create_subscription`) -/

/-- Raw `SubscriptionItem` payload (`src/schemas.py` lines 40–42) before
validation: any string `meal_id` and any numeric `servings`. -/
structure SubItemInput where
  meal_id : String
  servings : ℚ

/-- Raw `Subscription` payload (`src/schemas.py` lines 44–49) before
validation. -/
structure SubscriptionInput where
  email : String
  frequency : String
  target_protein_g_per_day : ℚ
  items : List SubItemInput
  notes : Option String

/-- Split a character sequence at each at-sign. -/
def splitAtSign : List Char → List (List Char)
  | [] => [[]]
  | c :: rest =>
      if c = '@' then [] :: splitAtSign rest
      else
        match splitAtSign rest with
        | [] => [[c]]
        | g :: gs => (c :: g) :: gs

/-- Modelled from the spec: "email (validated format)" — the `EmailStr`
validator (the external `email-validator` library behind `pydantic.EmailStr`)
accepts `local@domain` with a nonempty local part and a nonempty dotted
domain, and rejects anything without exactly one `@`. -/
def isValidEmail (s : String) : Bool :=
  match splitAtSign s.toList with
  | [loc, dom] => !loc.isEmpty && !dom.isEmpty && dom.contains '.'
  | _ => false

/-- The `Literal["weekly", "biweekly", "monthly"]` check on `frequency`
(`src/schemas.py` line 46). -/
def validFrequency (s : String) : Bool :=
  s = "weekly" || s = "biweekly" || s = "monthly"

/-- The `confloat(ge=0.5, le=5)` check on an item's `servings`
(`src/schemas.py` line 42). -/
def validSubItem (it : SubItemInput) : Bool :=
  decide ((1/2 : ℚ) ≤ it.servings) && decide (it.servings ≤ 5)

/-- Pydantic validation of a `Subscription` payload (`src/schemas.py` lines
44–49): valid email, enumerated frequency, `target_protein_g_per_day` in
`[20, 400]`, a non-empty items list, every item's servings in `[0.5, 5]`. -/
def validateSubscription (p : SubscriptionInput) : Bool :=
  isValidEmail p.email &&
  validFrequency p.frequency &&
  decide ((20 : ℚ) ≤ p.target_protein_g_per_day) &&
  decide (p.target_protein_g_per_day ≤ 400) &&
  decide (1 ≤ p.items.length) &&
  p.items.all validSubItem

/-- The `"subscription"` collection with the store's identity generator. -/
structure SubStore where
  docs : List SubscriptionInput
  next : Nat

/-- Response shape of `POST /subscriptions`: `{"id": sub_id}`. -/
structure SubResp where
  id : String
deriving DecidableEq

/-- `create_subscription` (`src/main.py` lines 119–125). FastAPI validates
the body against the `Subscription` schema before the handler runs: a
violation is rejected as a 422 and never reaches the store. On a valid
payload the handler inserts it (`create_document`, modelled from the spec:
the store layer returns the store-assigned identity as a string) and
returns that id. -/
def createSubscription (st : SubStore) (p : SubscriptionInput) :
    Except Nat (SubStore × SubResp) :=
  if validateSubscription p then
    .ok (⟨st.docs ++ [p], st.next + 1⟩, ⟨oidString st.next⟩)
  else
    .error 422

/-! ## Preferences — `POST /preferences` (`upsert_preferences`) -/

/-- Validated `Preference` record (`src/schemas.py` lines 51–54), as dumped
into the `"preference"` collection; every stored preference document carries
exactly these fields. -/
structure Preference where
  email : String
  target_protein_g_per_day : ℚ
  diet_filters : List String
deriving DecidableEq

/-- `upsert_preferences` (`src/main.py` lines 127–134), acting on the
`"preference"` collection in storage order. Modelled from the spec's upsert
semantics for `update_one({"email": pref.email}, {"$set": pref.model_dump()},
upsert=True)`: the first document whose `email` equals the payload's is
overwritten field-by-field with the full model dump — which, as stored
preference documents carry exactly the model's fields, replaces it outright —
and when no document matches, the payload is inserted. -/
def upsertPreference (st : List Preference) (p : Preference) : List Preference :=
  match st with
  | [] => [p]
  | q :: rest => if q.email = p.email then p :: rest else q :: upsertPreference rest p

/-! ## Store diagnostic probe — `GET /test` (`test_database`) -/

/-- The environment `test_database` inspects: whether the `db` handle exists
(`db is not None`), the outcome of `db.list_collection_names()` (a name list,
or the message of the exception it raises), and whether the `DATABASE_URL` /
`DATABASE_NAME` environment variables are set. -/
structure TestEnv where
  dbAvail : Bool
  listCollections : Except String (List String)
  urlSet : Bool
  nameSet : Bool

/-- Response shape of `GET /test`. -/
structure TestResp where
  backend : String
  database : String
  database_url : String
  database_name : String
  connection_status : String
  collections : List String
deriving DecidableEq

/-- `test_database` (`src/main.py` lines 24–53). Every failure condition is
caught and rendered as a status string: an unavailable handle, or a failing
collection listing (message truncated to 50 characters). Lines 51–52
overwrite `database_url` / `database_name` with the environment-variable
presence flags regardless of the earlier branch, so only those final values
appear. The collections list is capped to the first 10 names (line 42). -/
def testDatabase (env : TestEnv) : TestResp :=
  let branch : String × String × List String :=
    if env.dbAvail then
      match env.listCollections with
      | .ok cs => ("✅ Connected & Working", "Connected", cs.take 10)
      | .error e => ("⚠️  Connected but Error: " ++ e.take 50, "Connected", [])
    else
      ("⚠️  Available but not initialized", "Not Connected", [])
  { backend := "✅ Running"
    database := branch.1
    database_url := if env.urlSet then "✅ Set" else "❌ Not Set"
    database_name := if env.nameSet then "✅ Set" else "❌ Not Set"
    connection_status := branch.2.1
    collections := branch.2.2 }

/-! ## Concrete sample documents used by witnesses -/

/-- A stored meal document with the macro record of the claims: per-serving
`{protein: 10, carbs: 20, fats: 5, calories: 100}`. -/
def sampleMealDoc : Doc :=
  [("_id", Value.vOid 7),
   ("title", Value.vStr "Demo Meal"),
   ("category", Value.vStr "Breakfasts"),
   ("diet_tags", Value.vArr [Value.vStr "vegan"]),
   ("macros", Value.vDoc [("protein", Value.vNum 10), ("carbs", Value.vNum 20),
     ("fats", Value.vNum 5), ("calories", Value.vNum 100)])]

/-- A stored meal document with no `macros` sub-document at all. -/
def noMacrosDoc : Doc :=
  [("_id", Value.vOid 9), ("title", Value.vStr "Mystery Meal")]

/-! ## Helper lemmas -/

/-- Scaling a macros dict of purely numeric entries succeeds, multiplying
and rounding each value. -/
theorem scaleEntries_num (qs : List (String × ℚ)) (factor : ℚ) :
    scaleEntries (qs.map fun kv => (kv.1, Value.vNum kv.2)) factor =
      .ok (qs.map fun kv => (kv.1, round1 (kv.2 * factor))) := by
  induction qs with
  | nil => rfl
  | cons kv rest ih => simp [scaleEntries, ih]

/-! ## C1 — portion scaling on an unknown meal -/

/-- C1: for every portion-scaling request whose meal id identifies no stored
meal, the response is a 500, not the claimed 404: the
`HTTPException(404, "Meal not found")` raised inside the `try:` block is
caught by the blanket `except Exception` clause (`HTTPException` subclasses
`Exception`) and re-raised as `HTTPException(500, str(e))`. The claimed
not-found condition never reaches the caller. -/
theorem c1_portion_unknown_meal_gives_500 (store : List Doc) (oid : Nat) (s : ℚ)
    (h : findOne store oid = none) :
    getPortionMacros store oid s = .error (500, "404: Meal not found") := by
  simp only [getPortionMacros, getPortionMacrosTry, h]
  rfl

/-- C1 witness: the empty store holds no meal with identity 1, and the
portion request for it is answered with status 500. -/
theorem c1_portion_unknown_meal_gives_500_witness :
    findOne [] 1 = none ∧
    getPortionMacros [] 1 1 = .error (500, "404: Meal not found") :=
  ⟨rfl, c1_portion_unknown_meal_gives_500 [] 1 1 rfl⟩

/-! ## C2 — portion scaling arithmetic -/

/-- C2: on an existing meal whose stored macros are numeric, the effective
factor is `max(0.25, servings)` — so servings ≤ 0 clamps to 0.25 and any
servings ≥ 0.25 passes through with no upper clamp — and every returned
macro entry is the stored per-serving value multiplied by that factor and
rounded to one decimal place. -/
theorem c2_portion_scaling (store : List Doc) (oid : Nat) (doc : Doc)
    (qs : List (String × ℚ)) (s : ℚ)
    (h1 : findOne store oid = some doc)
    (h2 : getField doc "macros" =
      some (Value.vDoc (qs.map fun kv => (kv.1, Value.vNum kv.2)))) :
    getPortionMacros store oid s =
      .ok ⟨max (1/4) s, qs.map fun kv => (kv.1, round1 (kv.2 * max (1/4) s))⟩ ∧
    (s ≤ 0 → max (1/4 : ℚ) s = 1/4) ∧
    ((1/4 : ℚ) ≤ s → max (1/4 : ℚ) s = s) := by
  refine ⟨?_, fun hs => max_eq_left (by linarith), fun hs => max_eq_right hs⟩
  simp only [getPortionMacros, getPortionMacrosTry, h1, getMacrosDict, h2,
    scaleEntries_num]

/-- C2 witness: on the sample meal `{protein: 10, carbs: 20, fats: 5,
calories: 100}`, servings 2 yields factor 2 and macros
`{protein: 20, carbs: 40, fats: 10, calories: 200}`; servings 0 clamps to
factor 0.25; servings 100 passes through unclamped. -/
theorem c2_portion_scaling_witness :
    findOne [sampleMealDoc] 7 = some sampleMealDoc ∧
    getPortionMacros [sampleMealDoc] 7 2 =
      .ok ⟨2, [("protein", 20), ("carbs", 40), ("fats", 10), ("calories", 200)]⟩ ∧
    getPortionMacros [sampleMealDoc] 7 0 =
      .ok ⟨1/4, [("protein", 5/2), ("carbs", 5), ("fats", 6/5), ("calories", 25)]⟩ ∧
    getPortionMacros [sampleMealDoc] 7 100 =
      .ok ⟨100, [("protein", 1000), ("carbs", 2000), ("fats", 500),
        ("calories", 10000)]⟩ := by
  have hqs : getField sampleMealDoc "macros" =
      some (Value.vDoc (([("protein", (10:ℚ)), ("carbs", 20), ("fats", 5),
        ("calories", 100)]).map fun kv => (kv.1, Value.vNum kv.2))) := rfl
  refine ⟨rfl, ?_, ?_, ?_⟩
  · exact ((c2_portion_scaling [sampleMealDoc] 7 sampleMealDoc _ 2 rfl hqs).1).trans
      (congrArg Except.ok (by norm_num [round1, rhe]))
  · exact ((c2_portion_scaling [sampleMealDoc] 7 sampleMealDoc _ 0 rfl hqs).1).trans
      (congrArg Except.ok (by norm_num [round1, rhe]))
  · exact ((c2_portion_scaling [sampleMealDoc] 7 sampleMealDoc _ 100 rfl hqs).1).trans
      (congrArg Except.ok (by norm_num [round1, rhe]))

/-! ## C3 — seeding -/

/-- C3: the built-in catalog has exactly 6 meals; seeding an empty meal
collection inserts exactly those 6 (the inserted documents, net of their
store-assigned `_id`, are precisely the catalog's model dumps) and reports
`{seeded: true, count: 6}`; seeding a non-empty collection writes nothing
and reports `{seeded: false, count: <pre-existing count>}`, so every call
after the first seed is a no-op. -/
theorem c3_seed_inserts_catalog_once (st : MealStore) :
    INITIAL_MEALS.length = 6 ∧
    (st.docs = [] →
      (seed st).2 = ⟨true, 6⟩ ∧
      (seed st).1.docs.map (fun d => removeField d "_id") =
        INITIAL_MEALS.map mealToDoc) ∧
    (st.docs ≠ [] → seed st = (st, ⟨false, st.docs.length⟩)) := by
  obtain ⟨docs, n⟩ := st
  refine ⟨rfl, ?_, ?_⟩
  · intro h
    cases docs with
    | nil => exact ⟨rfl, rfl⟩
    | cons d rest => simp at h
  · intro h
    cases docs with
    | nil => exact absurd rfl h
    | cons d rest => rfl

/-- C3 witness: seeding the empty store inserts the 6 catalog meals and
reports them; seeding a store already holding one meal is a no-op reporting
count 1. -/
theorem c3_seed_inserts_catalog_once_witness :
    (seed ⟨[], 0⟩).2 = ⟨true, 6⟩ ∧
    (seed ⟨[], 0⟩).1.docs.map (fun d => removeField d "_id") =
      INITIAL_MEALS.map mealToDoc ∧
    seed ⟨[sampleMealDoc], 8⟩ = (⟨[sampleMealDoc], 8⟩, ⟨false, 1⟩) := by
  refine ⟨((c3_seed_inserts_catalog_once ⟨[], 0⟩).2.1 rfl).1,
    ((c3_seed_inserts_catalog_once ⟨[], 0⟩).2.1 rfl).2, ?_⟩
  exact (c3_seed_inserts_catalog_once ⟨[sampleMealDoc], 8⟩).2.2 (by simp)

/-! ## C4 — preference upsert -/

/-- C4: upserting twice with the same email, against any preference
collection holding at most one record for that email (the invariant the
upsert itself maintains), leaves exactly one stored record for that email,
and it carries the second call's full field set — email, target protein and
diet filters — with nothing merged from the first call. -/
theorem c4_preference_upsert_replaces (st : List Preference) (p1 p2 : Preference)
    (hemail : p1.email = p2.email)
    (hinv : (st.filter fun q => q.email == p2.email).length ≤ 1) :
    (upsertPreference (upsertPreference st p1) p2).filter
      (fun q => q.email == p2.email) = [p2] := by
  induction st with
  | nil => simp [upsertPreference, hemail, List.filter]
  | cons q rest ih =>
    by_cases hq : q.email = p1.email
    · have hq2 : q.email = p2.email := hq.trans hemail
      have h1 : upsertPreference (q :: rest) p1 = p1 :: rest := by
        simp [upsertPreference, hq]
      have h2 : upsertPreference (p1 :: rest) p2 = p2 :: rest := by
        simp [upsertPreference, hemail]
      rw [h1, h2]
      have hrest : (rest.filter fun q => q.email == p2.email) = [] := by
        rw [List.filter_cons_of_pos (by simpa using hq2)] at hinv
        simpa [List.length_eq_zero] using hinv
      simp [List.filter, hrest]
    · have hq2 : ¬ q.email = p2.email := fun h => hq (h.trans hemail.symm)
      have h1 : upsertPreference (q :: rest) p1 = q :: upsertPreference rest p1 := by
        simp [upsertPreference, hq]
      have h2 : upsertPreference (q :: upsertPreference rest p1) p2 =
          q :: upsertPreference (upsertPreference rest p1) p2 := by
        simp [upsertPreference, hq2]
      rw [h1, h2]
      have hinv' : (rest.filter fun q => q.email == p2.email).length ≤ 1 := by
        rwa [List.filter_cons_of_neg (by simpa using hq2)] at hinv
      rw [List.filter_cons_of_neg (by simpa using hq2)]
      exact ih hinv'

/-- C4 witness: two upserts for `user@example.com` — first with filters
`["vegan", "keto"]`, then with `["gluten-free"]` and a different protein
target — leave exactly one record for that email, equal to the second
payload. -/
theorem c4_preference_upsert_replaces_witness :
    (⟨"user@example.com", 120, ["vegan", "keto"]⟩ : Preference).email =
      (⟨"user@example.com", 200, ["gluten-free"]⟩ : Preference).email ∧
    (upsertPreference (upsertPreference [] ⟨"user@example.com", 120, ["vegan", "keto"]⟩)
        ⟨"user@example.com", 200, ["gluten-free"]⟩).filter
      (fun q => q.email == (⟨"user@example.com", 200, ["gluten-free"]⟩ : Preference).email) =
      [⟨"user@example.com", 200, ["gluten-free"]⟩] :=
  ⟨rfl, c4_preference_upsert_replaces [] _ _ rfl (by simp)⟩

/-! ## C5 — subscription validation -/

/-- A subscription payload meeting every constraint claim C5 lists — target
protein 100 ∈ [20, 400], one item, servings 1 ∈ [0.5, 5] — whose `frequency`
"daily" lies outside the schema's `Literal["weekly", "biweekly", "monthly"]`
enumeration. -/
def dailyFreqSub : SubscriptionInput :=
  ⟨"a@b.com", "daily", 100, [⟨"m1", 1⟩], none⟩

/-- C5 counterexample: the claim's converse — an input satisfying the three
listed constraints passes validation — is false: `dailyFreqSub` satisfies
target protein ∈ [20, 400], a non-empty items list and every servings ∈
[0.5, 5], yet validation rejects it (422) because its frequency is outside
the schema enumeration. -/
theorem c5_subscription_validation_counterexample :
    (20 : ℚ) ≤ dailyFreqSub.target_protein_g_per_day ∧
    dailyFreqSub.target_protein_g_per_day ≤ 400 ∧
    dailyFreqSub.items.length = 1 ∧
    dailyFreqSub.items.all validSubItem = true ∧
    validateSubscription dailyFreqSub = false ∧
    createSubscription ⟨[], 0⟩ dailyFreqSub = .error 422 := by
  refine ⟨by norm_num [dailyFreqSub], by norm_num [dailyFreqSub], rfl, ?_, ?_, ?_⟩
  · simp [dailyFreqSub, validSubItem]
    norm_num
  · simp [validateSubscription, dailyFreqSub, validFrequency]
  · simp [createSubscription, validateSubscription, dailyFreqSub, validFrequency]

/-- C5 (amended): a subscription input is rejected with a 422 schema
validation failure, before any store interaction, whenever its target
protein lies outside [20, 400], or its items list is empty, or some item's
servings lies outside [0.5, 5]; conversely an input satisfying these
constraints — and additionally carrying a validly formatted email and one of
the three enumerated frequencies, which the schema also validates — passes
validation and is inserted. -/
theorem c5_subscription_validation (st : SubStore) (p : SubscriptionInput) :
    ((¬ ((20 : ℚ) ≤ p.target_protein_g_per_day ∧ p.target_protein_g_per_day ≤ 400) ∨
      p.items = [] ∨
      ∃ it ∈ p.items, ¬ ((1/2 : ℚ) ≤ it.servings ∧ it.servings ≤ 5)) →
      createSubscription st p = .error 422) ∧
    (isValidEmail p.email = true →
      validFrequency p.frequency = true →
      (20 : ℚ) ≤ p.target_protein_g_per_day →
      p.target_protein_g_per_day ≤ 400 →
      p.items ≠ [] →
      (∀ it ∈ p.items, (1/2 : ℚ) ≤ it.servings ∧ it.servings ≤ 5) →
      createSubscription st p =
        .ok (⟨st.docs ++ [p], st.next + 1⟩, ⟨oidString st.next⟩)) := by
  constructor
  · intro h
    have hv : ¬ validateSubscription p = true := by
      simp only [validateSubscription, Bool.and_eq_true, decide_eq_true_eq,
        List.all_eq_true, validSubItem]
      rintro ⟨⟨⟨⟨⟨-, -⟩, h20⟩, h400⟩, hlen⟩, hall⟩
      rcases h with h | h | ⟨it, hmem, hbad⟩
      · exact h ⟨h20, h400⟩
      · rw [h] at hlen; exact absurd hlen (by norm_num)
      · exact hbad (by simpa using hall it hmem)
    unfold createSubscription
    rw [if_neg hv]
  · intro he hf h20 h400 hne hall
    have hv : validateSubscription p = true := by
      simp only [validateSubscription, Bool.and_eq_true, decide_eq_true_eq,
        List.all_eq_true, validSubItem]
      refine ⟨⟨⟨⟨⟨he, hf⟩, h20⟩, h400⟩, List.length_pos.mpr hne⟩, ?_⟩
      intro it hmem
      simpa using hall it hmem
    unfold createSubscription
    rw [if_pos hv]

/-- A subscription payload valid under the full schema. -/
def weeklySub : SubscriptionInput :=
  ⟨"a@b.com", "weekly", 100, [⟨"m1", 1⟩], none⟩

/-- A subscription payload whose target protein 500 exceeds 400. -/
def highProteinSub : SubscriptionInput :=
  ⟨"a@b.com", "weekly", 500, [⟨"m1", 1⟩], none⟩

/-- C5 witness: the fully valid weekly payload is inserted and assigned the
store identity; the payload with target protein 500 is rejected with 422. -/
theorem c5_subscription_validation_witness :
    createSubscription ⟨[], 0⟩ weeklySub = .ok (⟨[weeklySub], 1⟩, ⟨oidString 0⟩) ∧
    createSubscription ⟨[], 0⟩ highProteinSub = .error 422 := by
  constructor
  · exact (c5_subscription_validation ⟨[], 0⟩ weeklySub).2 rfl rfl
      (by norm_num [weeklySub]) (by norm_num [weeklySub]) (by simp [weeklySub])
      (by intro it hmem
          simp only [weeklySub, List.mem_singleton] at hmem
          subst hmem
          norm_num)
  · exact (c5_subscription_validation ⟨[], 0⟩ highProteinSub).1
      (Or.inl (by norm_num [highProteinSub]))

/-! ## C6 — list-meals filtering -/

/-- The per-document predicate claim C6 describes, amended for Python
truthiness: a supplied non-empty category must match the document's
`category` field, a supplied non-empty diet must be contained in its
`diet_tags`, and a supplied `min_protein` must be at most its effective
protein — while an empty-string category or diet is treated as absent,
exactly as the handler's `if category:` / `if diet:` truthiness checks do. -/
def passesFilters (category diet : Option String) (t : Option ℚ) (d : Doc) : Bool :=
  (match category with
   | none => true
   | some c => decide (c = "") || mongoFieldMatch d "category" c) &&
  (match diet with
   | none => true
   | some c => decide (c = "") || mongoFieldMatch d "diet_tags" c) &&
  (match t with
   | none => true
   | some tq =>
       match effectiveProtein d with
       | .ok p => decide (tq ≤ p)
       | .error _ => false)

/-- Fetching with the handler's `filter_dict` keeps exactly the documents
matching the (truthy) category and diet conditions. -/
theorem getDocuments_filterDict (store : List Doc) (category diet : Option String) :
    getDocuments store (filterDict category diet) =
      store.filter fun d =>
        (match category with
         | none => true
         | some c => decide (c = "") || mongoFieldMatch d "category" c) &&
        (match diet with
         | none => true
         | some c => decide (c = "") || mongoFieldMatch d "diet_tags" c) := by
  unfold getDocuments
  apply List.filter_congr
  intro d _
  cases category with
  | none =>
    cases diet with
    | none => rfl
    | some c => by_cases hc : c = "" <;> simp [filterDict, truthy, hc]
  | some c =>
    by_cases hc : c = ""
    · cases diet with
      | none => simp [filterDict, truthy, hc]
      | some c2 => by_cases hc2 : c2 = "" <;> simp [filterDict, truthy, hc, hc2]
    · cases diet with
      | none => simp [filterDict, truthy, hc]
      | some c2 => by_cases hc2 : c2 = "" <;> simp [filterDict, truthy, hc, hc2]

/-- When every document's effective protein is readable, the post-retrieval
protein filter succeeds and keeps exactly the documents at or above the
threshold. -/
theorem proteinFilter_eq_filter (l : List Doc) (t : ℚ)
    (h : ∀ d ∈ l, ∃ q, effectiveProtein d = .ok q) :
    proteinFilter l t = .ok (l.filter fun d =>
      match effectiveProtein d with
      | .ok p => decide (t ≤ p)
      | .error _ => false) := by
  induction l with
  | nil => rfl
  | cons d rest ih =>
    obtain ⟨q, hq⟩ := h d (List.mem_cons_self d rest)
    have ih' := ih fun d2 hd2 => h d2 (List.mem_cons_of_mem d hd2)
    by_cases hle : t ≤ q
    · simp [proteinFilter, hq, ih', List.filter_cons, hle]
    · simp [proteinFilter, hq, ih', List.filter_cons, hle]

/-- C6 (amended): for every store whose documents have readable protein
fields, the returned items are exactly the stored meals that satisfy every
supplied filter — category exact match, diet containment, protein threshold
— with empty-string category and diet parameters treated as absent (they are
falsy, so the handler builds no condition from them), each surviving
document exposed through the identity transform. -/
theorem c6_list_meals_filters (store : List Doc) (category diet : Option String)
    (t : Option ℚ) (hwf : ∀ d ∈ store, ∃ q, effectiveProtein d = .ok q) :
    listMeals store category diet t =
      .ok ((store.filter (passesFilters category diet t)).map transformId) := by
  unfold listMeals listMealsTry
  rw [getDocuments_filterDict]
  cases t with
  | none =>
    have h : (store.filter (passesFilters category diet none)) =
        store.filter fun d =>
          (match category with
           | none => true
           | some c => decide (c = "") || mongoFieldMatch d "category" c) &&
          (match diet with
           | none => true
           | some c => decide (c = "") || mongoFieldMatch d "diet_tags" c) := by
      apply List.filter_congr
      intro d _
      cases category <;> cases diet <;> simp [passesFilters]
    rw [h]
  | some tq =>
    dsimp only
    rw [proteinFilter_eq_filter _ tq
      (fun d hd => hwf d (List.mem_filter.mp hd).1)]
    simp only [List.filter_filter]
    have h : (store.filter fun d =>
        (match effectiveProtein d with
         | .ok p => decide (tq ≤ p)
         | .error _ => false) &&
        ((match category, d with
          | none, _ => true
          | some c, d => decide (c = "") || mongoFieldMatch d "category" c) &&
         (match diet with
          | none => true
          | some c => decide (c = "") || mongoFieldMatch d "diet_tags" c))) =
        store.filter (passesFilters category diet (some tq)) := by
      apply List.filter_congr
      intro d _
      cases hp : effectiveProtein d <;> cases category <;> cases diet <;>
        simp [passesFilters, hp, Bool.and_comm, Bool.and_left_comm, Bool.and_assoc]
    rw [h]

/-- C6 counterexample: the claim as stated fails for a supplied empty-string
category. With `category=""` supplied (reachable as `GET /meals?category=`),
`if category:` is falsy, so no category condition is built and the meal with
category "Breakfasts" is returned even though its category differs from the
supplied "". -/
theorem c6_list_meals_filters_counterexample :
    listMeals [sampleMealDoc] (some "") none none = .ok [transformId sampleMealDoc] ∧
    getField sampleMealDoc "category" = some (Value.vStr "Breakfasts") ∧
    ("Breakfasts" : String) ≠ "" := by
  exact ⟨rfl, rfl, by decide⟩

/-- C6 witness: listing with category "Breakfasts" and min_protein 30
returns exactly the stored meals passing both filters — here none, since the
sample meal's protein is 10. -/
theorem c6_list_meals_filters_witness :
    listMeals [sampleMealDoc] (some "Breakfasts") none (some 30) =
      .ok (([sampleMealDoc].filter
        (passesFilters (some "Breakfasts") none (some 30))).map transformId) ∧
    ([sampleMealDoc].filter
      (passesFilters (some "Breakfasts") none (some 30))).map transformId = [] := by
  constructor
  · exact c6_list_meals_filters [sampleMealDoc] (some "Breakfasts") none (some 30)
      (by intro d hd
          simp only [List.mem_singleton] at hd
          subst hd
          exact ⟨10, rfl⟩)
  · rfl

/-! ## C7 — identity exposure -/

/-- `fieldsHasOid` is `any` of `hasOid` over the field values. -/
theorem fieldsHasOid_eq_any (fs : List (String × Value)) :
    fieldsHasOid fs = fs.any fun kv => kv.2.hasOid := by
  induction fs with
  | nil => rfl
  | cons kv rest ih =>
    obtain ⟨k, v⟩ := kv
    simp [fieldsHasOid, ih]

/-- After removing a key, looking it up yields nothing. -/
theorem getField_removeField_self (d : Doc) (k : String) :
    getField (removeField d k) k = none := by
  induction d with
  | nil => rfl
  | cons kv rest ih =>
    obtain ⟨k2, v⟩ := kv
    by_cases h : k2 = k
    · simpa [removeField, List.filter_cons, h] using ih
    · simpa [removeField, List.filter_cons, h, getField] using ih

/-- Looking up the key just set yields the new value. -/
theorem getField_setField_self (d : Doc) (k : String) (v : Value) :
    getField (setField d k v) k = some v := by
  induction d with
  | nil => simp [setField, getField]
  | cons kv rest ih =>
    obtain ⟨k2, v2⟩ := kv
    by_cases h : k2 = k
    · simp [setField, h, getField]
    · simp [setField, h, getField, ih]

/-- Setting one key leaves lookups of any other key unchanged. -/
theorem getField_setField_ne (d : Doc) (k : String) (v : Value) (k2 : String)
    (h : k2 ≠ k) :
    getField (setField d k v) k2 = getField d k2 := by
  induction d with
  | nil => simp [setField, getField, Ne.symm h]
  | cons kv rest ih =>
    obtain ⟨k3, v3⟩ := kv
    by_cases h3 : k3 = k
    · subst h3
      simp [setField, getField, Ne.symm h]
    · simp [setField, h3, getField, ih]

/-- Setting an oid-free value on an oid-free document keeps it oid-free. -/
theorem fieldsHasOid_setField (d : Doc) (k : String) (v : Value)
    (hd : fieldsHasOid d = false) (hv : v.hasOid = false) :
    fieldsHasOid (setField d k v) = false := by
  induction d with
  | nil => simp [setField, fieldsHasOid, hv]
  | cons kv rest ih =>
    obtain ⟨k2, v2⟩ := kv
    simp only [fieldsHasOid, Bool.or_eq_false_iff] at hd
    by_cases h : k2 = k
    · simp [setField, h, fieldsHasOid, hv, hd.2]
    · simp [setField, h, fieldsHasOid, hd.1, ih hd.2]

/-- The identity transform of `list_meals`, applied to a document whose
non-`_id` values are oid-free and which carries an ObjectId under `_id`,
yields a document that is oid-free, has no `_id` field, and exposes `"id"`
as a plain string. -/
theorem transformId_props (d : Doc)
    (hno : ∀ kv ∈ d, kv.1 ≠ "_id" → kv.2.hasOid = false)
    (hid : ∃ n, getField d "_id" = some (Value.vOid n)) :
    fieldsHasOid (transformId d) = false ∧
    getField (transformId d) "_id" = none ∧
    ∃ s, getField (transformId d) "id" = some (Value.vStr s) := by
  obtain ⟨n, hn⟩ := hid
  unfold transformId
  rw [hn]
  refine ⟨?_, ?_, ?_⟩
  · apply fieldsHasOid_setField
    · rw [fieldsHasOid_eq_any]
      rw [List.any_eq_false]
      intro kv hkv
      have hkv2 := List.mem_filter.mp hkv
      have hne : kv.1 ≠ "_id" := by simpa using hkv2.2
      simp [hno kv hkv2.1 hne]
    · rfl
  · rw [getField_setField_ne _ _ _ _ (by decide)]
    exact getField_removeField_self d "_id"
  · exact ⟨valueStr (Value.vOid n), getField_setField_self _ _ _⟩

/-- Documents surviving the protein post-filter come from its input list. -/
theorem proteinFilter_mem (l : List Doc) (t : ℚ) (res : List Doc)
    (h : proteinFilter l t = .ok res) : ∀ d ∈ res, d ∈ l := by
  induction l generalizing res with
  | nil =>
    simp only [proteinFilter] at h
    cases h
    simp
  | cons d rest ih =>
    cases hp : effectiveProtein d with
    | error e => simp [proteinFilter, hp] at h
    | ok p =>
      cases hpf : proteinFilter rest t with
      | error e => simp [proteinFilter, hp, hpf] at h
      | ok tail =>
        simp only [proteinFilter, hp, hpf] at h
        cases h
        intro d2 hd2
        by_cases hle : t ≤ p
        · rw [if_pos hle] at hd2
          rcases List.mem_cons.mp hd2 with rfl | hd3
          · exact List.mem_cons_self _ _
          · exact List.mem_cons_of_mem _ (ih tail hpf d2 hd3)
        · rw [if_neg hle] at hd2
          exact List.mem_cons_of_mem _ (ih tail hpf d2 hd2)

/-- Every item of a successful `list_meals` response is the identity
transform of some stored document. -/
theorem listMeals_items_shape (store : List Doc) (category diet : Option String)
    (t : Option ℚ) (l : List Doc) (h : listMeals store category diet t = .ok l) :
    ∀ item ∈ l, ∃ d ∈ store, item = transformId d := by
  unfold listMeals listMealsTry at h
  cases t with
  | none =>
    dsimp only at h
    cases h
    intro item hitem
    obtain ⟨d, hd, rfl⟩ := List.mem_map.mp hitem
    exact ⟨d, (List.mem_filter.mp hd).1, rfl⟩
  | some tq =>
    dsimp only at h
    cases hpf : proteinFilter (getDocuments store (filterDict category diet)) tq with
    | error e => rw [hpf] at h; cases h
    | ok filtered =>
      rw [hpf] at h
      cases h
      intro item hitem
      obtain ⟨d, hd, rfl⟩ := List.mem_map.mp hitem
      have hd2 := proteinFilter_mem _ tq filtered hpf d hd
      exact ⟨d, (List.mem_filter.mp hd2).1, rfl⟩

/-- C7: identity fields in responses are plain strings and the store-native
identity never leaks. For list-meals: over any store of well-formed Mongo
documents (each has an ObjectId under `_id` and no ObjectId anywhere else),
every returned item contains no ObjectId anywhere, has no `_id` field, and
exposes key `"id"` as a plain string. For create-subscription: the returned
id is the string rendering of the store-assigned identity. -/
theorem c7_identity_as_string :
    (∀ (store : List Doc) (category diet : Option String) (t : Option ℚ)
      (l : List Doc),
      (∀ d ∈ store, (∀ kv ∈ d, kv.1 ≠ "_id" → kv.2.hasOid = false) ∧
        ∃ n, getField d "_id" = some (Value.vOid n)) →
      listMeals store category diet t = .ok l →
      ∀ item ∈ l, fieldsHasOid item = false ∧ getField item "_id" = none ∧
        ∃ s, getField item "id" = some (Value.vStr s)) ∧
    (∀ (st : SubStore) (p : SubscriptionInput) (res : SubStore × SubResp),
      createSubscription st p = .ok res → res.2.id = oidString st.next) := by
  constructor
  · intro store category diet t l hstore hl item hitem
    obtain ⟨d, hd, rfl⟩ := listMeals_items_shape store category diet t l hl item hitem
    exact transformId_props d (hstore d hd).1 (hstore d hd).2
  · intro st p res h
    unfold createSubscription at h
    by_cases hv : validateSubscription p = true
    · rw [if_pos hv] at h
      cases h
      rfl
    · rw [if_neg hv] at h
      cases h

/-- C7 witness: listing the one-meal store returns the transformed sample
document — oid-free, `_id`-free, with `"id"` bound to a string — and the
created weekly subscription's id equals the string rendering of the assigned
identity. -/
theorem c7_identity_as_string_witness :
    listMeals [sampleMealDoc] none none none = .ok [transformId sampleMealDoc] ∧
    fieldsHasOid (transformId sampleMealDoc) = false ∧
    getField (transformId sampleMealDoc) "_id" = none ∧
    getField (transformId sampleMealDoc) "id" = some (Value.vStr (oidString 7)) ∧
    ((⟨[weeklySub], 1⟩, ⟨oidString 0⟩) : SubStore × SubResp).2.id = oidString 0 := by
  have hl : listMeals [sampleMealDoc] none none none =
      .ok [transformId sampleMealDoc] := rfl
  have h := c7_identity_as_string.1 [sampleMealDoc] none none none
    [transformId sampleMealDoc]
    (by intro d hd
        simp only [List.mem_singleton] at hd
        subst hd
        constructor
        · intro kv hkv hne
          simp only [sampleMealDoc, List.mem_cons, List.not_mem_nil, or_false] at hkv
          rcases hkv with rfl | rfl | rfl | rfl | rfl
          · exact absurd rfl hne
          · rfl
          · rfl
          · rfl
          · rfl
        · exact ⟨7, rfl⟩)
    hl (transformId sampleMealDoc) (List.mem_singleton_self _)
  have hcs : createSubscription ⟨[], 0⟩ weeklySub =
      .ok (⟨[weeklySub], 1⟩, ⟨oidString 0⟩) := by
    have hv : validateSubscription weeklySub = true := by
      have h1 : isValidEmail weeklySub.email = true := rfl
      have h2 : validFrequency weeklySub.frequency = true := rfl
      unfold validateSubscription
      rw [h1, h2]
      norm_num [weeklySub, validSubItem]
    unfold createSubscription
    rw [if_pos hv]
    rfl
  have h2 := c7_identity_as_string.2 ⟨[], 0⟩ weeklySub
    (⟨[weeklySub], 1⟩, ⟨oidString 0⟩) hcs
  exact ⟨hl, h.1, h.2.1, rfl, h2⟩

/-! ## C8 — store diagnostic probe -/

/-- C8: the diagnostic probe is a total function of the inspected
environment — every failure condition becomes a status string rather than an
error — the reported collections are capped at the first 10 names, a missing
connection string or database name degrades the respective field to
"❌ Not Set", an unavailable handle and a failing collection listing each
yield their documented status text (the exception message truncated to 50
characters), and a successful listing reports "Connected & Working". -/
theorem c8_test_database_total_report (env : TestEnv) :
    (testDatabase env).collections.length ≤ 10 ∧
    (∀ cs, env.listCollections = .ok cs → env.dbAvail = true →
      (testDatabase env).collections = cs.take 10 ∧
      (testDatabase env).database = "✅ Connected & Working" ∧
      (testDatabase env).connection_status = "Connected") ∧
    (∀ e, env.listCollections = .error e → env.dbAvail = true →
      (testDatabase env).database = "⚠️  Connected but Error: " ++ e.take 50 ∧
      (testDatabase env).collections = []) ∧
    (env.dbAvail = false →
      (testDatabase env).database = "⚠️  Available but not initialized" ∧
      (testDatabase env).connection_status = "Not Connected" ∧
      (testDatabase env).collections = []) ∧
    (testDatabase env).database_url = (if env.urlSet then "✅ Set" else "❌ Not Set") ∧
    (testDatabase env).database_name = (if env.nameSet then "✅ Set" else "❌ Not Set") ∧
    (testDatabase env).backend = "✅ Running" := by
  obtain ⟨avail, lc, urlSet, nameSet⟩ := env
  cases avail <;> cases lc <;>
    simp [testDatabase, List.length_take_le]

/-- C8 witness: with the handle available, 12 listable collections and only
the connection string configured, the probe reports the first 10 names,
"Connected & Working", and "Not Set" for the database name; with no handle
and a failing listing it reports the initialization status text. -/
theorem c8_test_database_total_report_witness :
    (testDatabase ⟨true, .ok ["c1", "c2", "c3", "c4", "c5", "c6", "c7", "c8", "c9",
        "c10", "c11", "c12"], true, false⟩).collections =
      ["c1", "c2", "c3", "c4", "c5", "c6", "c7", "c8", "c9", "c10"] ∧
    (testDatabase ⟨true, .ok ["c1", "c2", "c3", "c4", "c5", "c6", "c7", "c8", "c9",
        "c10", "c11", "c12"], true, false⟩).database = "✅ Connected & Working" ∧
    (testDatabase ⟨true, .ok ["c1", "c2", "c3", "c4", "c5", "c6", "c7", "c8", "c9",
        "c10", "c11", "c12"], true, false⟩).database_name = "❌ Not Set" ∧
    (testDatabase ⟨false, .error "boom", false, false⟩).database =
      "⚠️  Available but not initialized" := by
  have h1 := c8_test_database_total_report ⟨true, .ok ["c1", "c2", "c3", "c4", "c5",
    "c6", "c7", "c8", "c9", "c10", "c11", "c12"], true, false⟩
  have h2 := c8_test_database_total_report ⟨false, .error "boom", false, false⟩
  refine ⟨?_, (h1.2.1 _ rfl rfl).2.1, ?_, (h2.2.2.2.1 rfl).1⟩
  · exact (h1.2.1 _ rfl rfl).1
  · simpa using h1.2.2.2.2.2.1

/-! ## C9 — missing protein defaults to zero -/

/-- C9: a stored meal document lacking a `macros` sub-document, or lacking a
`protein` field inside it, is filtered as protein 0: it is excluded by every
strictly positive `min_protein` threshold, and included when `min_protein`
is 0 or absent. -/
theorem c9_missing_protein_defaults_zero (d : Doc)
    (h : getField d "macros" = none ∨
      ∃ fs, getField d "macros" = some (Value.vDoc fs) ∧
        getField fs "protein" = none) :
    effectiveProtein d = .ok 0 ∧
    (∀ t : ℚ, 0 < t → listMeals [d] none none (some t) = .ok []) ∧
    listMeals [d] none none (some 0) = .ok [transformId d] ∧
    listMeals [d] none none none = .ok [transformId d] := by
  have hp : effectiveProtein d = .ok 0 := by
    rcases h with h | ⟨fs, h1, h2⟩
    · simp [effectiveProtein, h]
    · simp [effectiveProtein, h1, h2]
  refine ⟨hp, ?_, ?_, rfl⟩
  · intro t ht
    unfold listMeals listMealsTry
    dsimp only
    rw [show getDocuments [d] (filterDict none none) = [d] from rfl]
    rw [show proteinFilter [d] t = .ok [] from by
      simp [proteinFilter, hp, not_le.mpr ht]]
    rfl
  · unfold listMeals listMealsTry
    dsimp only
    rw [show getDocuments [d] (filterDict none none) = [d] from rfl]
    rw [show proteinFilter [d] (0 : ℚ) = .ok [d] from by simp [proteinFilter, hp]]
    rfl

/-- C9 witness: the stored document with no `macros` at all is excluded at
min_protein 30, yet included at min_protein 0 and with no threshold. -/
theorem c9_missing_protein_defaults_zero_witness :
    effectiveProtein noMacrosDoc = .ok 0 ∧
    listMeals [noMacrosDoc] none none (some 30) = .ok [] ∧
    listMeals [noMacrosDoc] none none (some 0) = .ok [transformId noMacrosDoc] ∧
    listMeals [noMacrosDoc] none none none = .ok [transformId noMacrosDoc] := by
  have h := c9_missing_protein_defaults_zero noMacrosDoc (Or.inl rfl)
  exact ⟨h.1, h.2.1 30 (by norm_num), h.2.2.1, h.2.2.2⟩

/-! ## C10 — portion scaling over whatever keys are stored -/

/-- Scaling preserves the key list of the macros dict. -/
theorem scaleEntries_keys (fs : List (String × Value)) (factor : ℚ)
    (res : List (String × ℚ)) (h : scaleEntries fs factor = .ok res) :
    res.map Prod.fst = fs.map Prod.fst := by
  induction fs generalizing res with
  | nil =>
    simp only [scaleEntries] at h
    cases h
    rfl
  | cons kv rest ih =>
    obtain ⟨k, v⟩ := kv
    cases v with
    | vNum q =>
      cases hr : scaleEntries rest factor with
      | error e => simp [scaleEntries, hr] at h
      | ok tail =>
        simp only [scaleEntries, hr] at h
        cases h
        simp [ih tail hr]
    | vNull => simp [scaleEntries] at h
    | vStr s => simp [scaleEntries] at h
    | vBool b => simp [scaleEntries] at h
    | vOid n => simp [scaleEntries] at h
    | vArr xs => simp [scaleEntries] at h
    | vDoc fs2 => simp [scaleEntries] at h

/-- C10: portion scaling on an existing meal document with no `macros`
sub-document succeeds, returning the clamped factor and an empty macros
object; and on any existing document with a macros dict, a successful
response scales exactly the keys present in that dict — its key list equals
the stored one — whatever those keys are. -/
theorem c10_portion_scales_present_keys (store : List Doc) (oid : Nat)
    (doc : Doc) (s : ℚ) (h1 : findOne store oid = some doc) :
    (getField doc "macros" = none →
      getPortionMacros store oid s = .ok ⟨max (1/4) s, []⟩) ∧
    (∀ fs r, getField doc "macros" = some (Value.vDoc fs) →
      getPortionMacros store oid s = .ok r →
      r.macros.map Prod.fst = fs.map Prod.fst ∧ r.servings = max (1/4) s) := by
  constructor
  · intro h2
    simp [getPortionMacros, getPortionMacrosTry, h1, getMacrosDict, h2, scaleEntries]
  · intro fs r h2 h3
    unfold getPortionMacros getPortionMacrosTry at h3
    rw [h1] at h3
    dsimp only at h3
    unfold getMacrosDict at h3
    rw [h2] at h3
    dsimp only at h3
    cases hs : scaleEntries fs (max (1/4) s) with
    | error e => rw [hs] at h3; cases h3
    | ok scaled =>
      rw [hs] at h3
      dsimp only at h3
      cases h3
      exact ⟨scaleEntries_keys fs _ scaled hs, rfl⟩

/-- A stored meal document whose `macros` sub-document is present but empty. -/
def emptyMacrosDoc : Doc :=
  [("_id", Value.vOid 11), ("title", Value.vStr "Bare Meal"),
   ("macros", Value.vDoc [])]

/-- C10 witness: scaling the document with no `macros` returns the factor
with an empty macros object; scaling the document with an empty macros dict
returns a response whose key list equals the stored (empty) key list. -/
theorem c10_portion_scales_present_keys_witness :
    findOne [noMacrosDoc] 9 = some noMacrosDoc ∧
    getPortionMacros [noMacrosDoc] 9 3 = .ok ⟨max (1/4) 3, []⟩ ∧
    getField emptyMacrosDoc "macros" = some (Value.vDoc []) ∧
    getPortionMacros [emptyMacrosDoc] 11 3 = .ok ⟨max (1/4) 3, []⟩ ∧
    (⟨max (1/4) 3, ([] : List (String × ℚ))⟩ : PortionResp).macros.map Prod.fst =
      ([] : List (String × Value)).map Prod.fst := by
  have hrun : getPortionMacros [emptyMacrosDoc] 11 3 = .ok ⟨max (1/4) 3, []⟩ := rfl
  refine ⟨rfl, (c10_portion_scales_present_keys [noMacrosDoc] 9 noMacrosDoc 3 rfl).1 rfl,
    rfl, hrun, ?_⟩
  exact ((c10_portion_scales_present_keys [emptyMacrosDoc] 11 emptyMacrosDoc 3 rfl).2
    [] ⟨max (1/4) 3, []⟩ rfl hrun).1

end ProteinMeals
